import Mathlib

/-!
Verification of the globe3D offline geometry pipeline (`build-globe.js`).

The pipeline converts national-boundary polygons into a spherical, extruded
triangle mesh.  This file gives a shallow embedding of the pipeline's data
model and operations and proves the specified properties about them.

Conventions of the embedding:
* JavaScript numbers are modelled by `ℝ` where trigonometry is involved
  (projection, subdivision, extrusion) and by `ℚ` for the purely rational
  2D stages (ring coordinates, simplification, colors), so those stages
  stay executable.
* Fallible stages return `Option`.
* The external triangulator (earcut) is passed as an explicit function
  parameter: the pipeline only inspects its output list of indices.
-/

namespace Globe

open Real

/-- A 3D Cartesian point, as produced by `latLngToVector3`. -/
@[ext]
structure Vec3 where
  x : ℝ
  y : ℝ
  z : ℝ

/-- Squared Euclidean norm of a `Vec3` (distance-from-origin squared). -/
def sqNorm (v : Vec3) : ℝ := v.x ^ 2 + v.y ^ 2 + v.z ^ 2

/-- `GLOBE_RADIUS` configuration constant from `build-globe.js`. -/
def GLOBE_RADIUS : ℝ := 1.0

/-- `EXTRUSION_HEIGHT` configuration constant from `build-globe.js`. -/
noncomputable def EXTRUSION_HEIGHT : ℝ := 0.02

/-- `SIMPLIFICATION_TOLERANCE` configuration constant from `build-globe.js`
(the ring coordinates are rational, so the tolerance lives in `ℚ`). -/
def SIMPLIFICATION_TOLERANCE : ℚ := 0.006

/-- `latLngToVector3` from `build-globe.js`: convert latitude/longitude in
degrees to a Cartesian point on the sphere of radius `radius + height`. -/
noncomputable def latLngToVector3 (lat lng : ℝ) (radius : ℝ) (height : ℝ) : Vec3 :=
  let phi := (90 - lat) * π / 180
  let theta := -(lng + 180) * π / 180
  let r := radius + height
  { x := r * Real.sin phi * Real.cos theta
    y := r * Real.cos phi
    z := r * Real.sin phi * Real.sin theta }

/-- Claim C1: the Spherical Projector returns exactly the Cartesian point
given by `phi = (90 - lat)·π/180`, `theta = -(lon + 180)·π/180`,
`x = r·sin φ·cos θ`, `y = r·cos φ`, `z = r·sin φ·sin θ`; and at radius 1 the
three fixtures (lat 0, lon 0), (lat 90, lon 0), (lat −90, lon 45) map to
(−1, 0, 0), (0, 1, 0), (0, −1, 0) respectively (exactly, in the real model). -/
theorem claim_C1 :
    (∀ lat lon r : ℝ,
      latLngToVector3 lat lon r 0 =
        { x := r * Real.sin ((90 - lat) * π / 180) * Real.cos (-(lon + 180) * π / 180)
          y := r * Real.cos ((90 - lat) * π / 180)
          z := r * Real.sin ((90 - lat) * π / 180) * Real.sin (-(lon + 180) * π / 180) }) ∧
    latLngToVector3 0 0 1 0 = { x := -1, y := 0, z := 0 } ∧
    latLngToVector3 90 0 1 0 = { x := 0, y := 1, z := 0 } ∧
    latLngToVector3 (-90) 45 1 0 = { x := 0, y := -1, z := 0 } := by
  refine ⟨fun lat lon r => ?_, ?_, ?_, ?_⟩
  · simp only [latLngToVector3]
    ext <;> ring
  · have hphi : ((90 : ℝ) - 0) * π / 180 = π / 2 := by ring
    have hth : (-(((0 : ℝ)) + 180) * π / 180) = -π := by ring
    simp only [latLngToVector3]
    ext
    · show (1 + 0 : ℝ) * Real.sin ((90 - 0) * π / 180) *
        Real.cos (-((0 : ℝ) + 180) * π / 180) = -1
      rw [hphi, hth, Real.sin_pi_div_two, Real.cos_neg, Real.cos_pi]; ring
    · show (1 + 0 : ℝ) * Real.cos ((90 - 0) * π / 180) = 0
      rw [hphi, Real.cos_pi_div_two]; ring
    · show (1 + 0 : ℝ) * Real.sin ((90 - 0) * π / 180) *
        Real.sin (-((0 : ℝ) + 180) * π / 180) = 0
      rw [hphi, hth, Real.sin_pi_div_two, Real.sin_neg, Real.sin_pi]; ring
  · have hphi : ((90 : ℝ) - 90) * π / 180 = 0 := by ring
    simp only [latLngToVector3]
    ext
    · show (1 + 0 : ℝ) * Real.sin ((90 - 90) * π / 180) *
        Real.cos (-((0 : ℝ) + 180) * π / 180) = 0
      rw [hphi, Real.sin_zero]; ring
    · show (1 + 0 : ℝ) * Real.cos ((90 - 90) * π / 180) = 1
      rw [hphi, Real.cos_zero]; ring
    · show (1 + 0 : ℝ) * Real.sin ((90 - 90) * π / 180) *
        Real.sin (-((0 : ℝ) + 180) * π / 180) = 0
      rw [hphi, Real.sin_zero]; ring
  · have hphi : ((90 : ℝ) - -90) * π / 180 = π := by ring
    simp only [latLngToVector3]
    ext
    · show (1 + 0 : ℝ) * Real.sin ((90 - -90) * π / 180) *
        Real.cos (-((45 : ℝ) + 180) * π / 180) = 0
      rw [hphi, Real.sin_pi]; ring
    · show (1 + 0 : ℝ) * Real.cos ((90 - -90) * π / 180) = -1
      rw [hphi, Real.cos_pi]; ring
    · show (1 + 0 : ℝ) * Real.sin ((90 - -90) * π / 180) *
        Real.sin (-((45 : ℝ) + 180) * π / 180) = 0
      rw [hphi, Real.sin_pi]; ring

/-- A triangle: three `Vec3` corners, as in the triplet lists handled by
`subdivideTriangles`. -/
def Tri : Type := Vec3 × Vec3 × Vec3

/-- The three corner vertices of a triangle, in order. -/
def triVerts (t : Tri) : List Vec3 := [t.1, t.2.1, t.2.2]

/-- `midpoint` from `build-globe.js`: componentwise average of two vertices. -/
def midpoint (v0 v1 : Vec3) : Vec3 :=
  { x := (v0.x + v1.x) * 0.5
    y := (v0.y + v1.y) * 0.5
    z := (v0.z + v1.z) * 0.5 }

/-- `projectToSphere` from `build-globe.js`: scale a vertex to length
`radius` by dividing by its Euclidean length. -/
noncomputable def projectToSphere (v : Vec3) (radius : ℝ) : Vec3 :=
  let len := Real.sqrt (v.x * v.x + v.y * v.y + v.z * v.z)
  { x := v.x / len * radius
    y := v.y / len * radius
    z := v.z / len * radius }

/-- The index-triplet-to-triangle conversion at the top of
`subdivideTriangles`: indices are consumed three at a time, each index
looked up in the vertex array. -/
def toTriangles (vertices : List Vec3) : List ℕ → List Tri
  | i0 :: i1 :: i2 :: rest =>
    (vertices.getD i0 { x := 0, y := 0, z := 0 },
     vertices.getD i1 { x := 0, y := 0, z := 0 },
     vertices.getD i2 { x := 0, y := 0, z := 0 }) :: toTriangles vertices rest
  | _ => []

/-- One level of the subdivision loop in `subdivideTriangles`: every
triangle is replaced by its four children, the three edge midpoints being
projected onto the sphere. -/
noncomputable def subdivideStep (radius : ℝ) (tris : List Tri) : List Tri :=
  tris.flatMap fun t =>
    let m01 := projectToSphere (midpoint t.1 t.2.1) radius
    let m12 := projectToSphere (midpoint t.2.1 t.2.2) radius
    let m20 := projectToSphere (midpoint t.2.2 t.1) radius
    [(t.1, m01, m20), (m01, t.2.1, m12), (m20, m12, t.2.2), (m01, m12, m20)]

/-- The `for (let l = 0; l < level; l++)` loop of `subdivideTriangles`. -/
noncomputable def iterSubdivide (radius : ℝ) : ℕ → List Tri → List Tri
  | 0, ts => ts
  | n + 1, ts => iterSubdivide radius n (subdivideStep radius ts)

/-- `subdivideTriangles` from `build-globe.js`. -/
noncomputable def subdivideTriangles (vertices : List Vec3)
    (triangleIndices : List ℕ) (level : ℕ) (radius : ℝ) : List Tri :=
  iterSubdivide radius level (toTriangles vertices triangleIndices)

theorem toTriangles_length (vertices : List Vec3) :
    ∀ idx : List ℕ, 3 ∣ idx.length →
      (toTriangles vertices idx).length = idx.length / 3
  | i0 :: i1 :: i2 :: rest, h => by
    simp only [toTriangles, List.length_cons]
    have h3 : 3 ∣ rest.length := by
      simp only [List.length_cons] at h
      omega
    rw [toTriangles_length vertices rest h3]
    omega
  | [], _ => by simp [toTriangles]
  | [i], h => by simp only [List.length_cons, List.length_nil] at h; omega
  | [i, j], h => by simp only [List.length_cons, List.length_nil] at h; omega

theorem subdivideStep_length (radius : ℝ) (tris : List Tri) :
    (subdivideStep radius tris).length = 4 * tris.length := by
  induction tris with
  | nil => simp [subdivideStep]
  | cons t ts ih =>
    simp only [subdivideStep, List.flatMap_cons, List.length_append,
      List.length_cons, List.length_nil] at ih ⊢
    omega

theorem iterSubdivide_length (radius : ℝ) (level : ℕ) (tris : List Tri) :
    (iterSubdivide radius level tris).length = 4 ^ level * tris.length := by
  induction level generalizing tris with
  | zero => simp [iterSubdivide]
  | succ n ih =>
    simp only [iterSubdivide]
    rw [ih, subdivideStep_length]
    ring

/-- Claim C5: for `n` input triangles (given as `3n` indices) and any level
`L ≥ 0`, the Recursive Subdivider outputs exactly `n * 4^L` triangles, and at
`L = 0` the output triangle list is exactly the input triangle list. -/
theorem claim_C5 :
    (∀ (vertices : List Vec3) (idx : List ℕ) (level : ℕ) (radius : ℝ),
      3 ∣ idx.length →
      (subdivideTriangles vertices idx level radius).length =
        idx.length / 3 * 4 ^ level) ∧
    (∀ (vertices : List Vec3) (idx : List ℕ) (radius : ℝ),
      subdivideTriangles vertices idx 0 radius = toTriangles vertices idx) := by
  constructor
  · intro vertices idx level radius h
    rw [subdivideTriangles, iterSubdivide_length, toTriangles_length vertices idx h]
    ring
  · intro vertices idx radius
    rfl

/-- Witness for claim C5 at a concrete input: one root triangle (three
indices) subdivided to level 2 yields 16 triangles. -/
theorem claim_C5_witness :
    3 ∣ ([0, 1, 2] : List ℕ).length ∧
    (subdivideTriangles [{ x := 1, y := 0, z := 0 }, { x := 0, y := 1, z := 0 },
        { x := 0, y := 0, z := 1 }] [0, 1, 2] 2 1).length =
      ([0, 1, 2] : List ℕ).length / 3 * 4 ^ 2 :=
  ⟨by decide,
   claim_C5.1 [{ x := 1, y := 0, z := 0 }, { x := 0, y := 1, z := 0 },
      { x := 0, y := 0, z := 1 }] [0, 1, 2] 2 1 (by decide)⟩

/-- The three (unprojected) edge midpoints of a triangle, in the order they
are computed inside the subdivision loop. -/
def midpoints (t : Tri) : List Vec3 :=
  [midpoint t.1 t.2.1, midpoint t.2.1 t.2.2, midpoint t.2.2 t.1]

/-- No edge midpoint of any triangle in the list is the zero vector (the
`projectToSphere` division is well defined on it). -/
def NoZeroMid (tris : List Tri) : Prop :=
  ∀ t ∈ tris, ∀ m ∈ midpoints t, sqNorm m ≠ 0

theorem sqNorm_projectToSphere (v : Vec3) (radius : ℝ) (h : sqNorm v ≠ 0) :
    sqNorm (projectToSphere v radius) = radius ^ 2 := by
  have hs : v.x * v.x + v.y * v.y + v.z * v.z = sqNorm v := by
    simp only [sqNorm]; ring
  have hnn : (0 : ℝ) ≤ v.x * v.x + v.y * v.y + v.z * v.z := by
    nlinarith [mul_self_nonneg v.x, mul_self_nonneg v.y, mul_self_nonneg v.z]
  have hpos : 0 < v.x * v.x + v.y * v.y + v.z * v.z :=
    lt_of_le_of_ne hnn (by rw [hs]; exact Ne.symm h)
  have hlen2 : Real.sqrt (v.x * v.x + v.y * v.y + v.z * v.z) ^ 2 =
      v.x * v.x + v.y * v.y + v.z * v.z := Real.sq_sqrt hnn
  have hlen0 : Real.sqrt (v.x * v.x + v.y * v.y + v.z * v.z) ≠ 0 :=
    ne_of_gt (Real.sqrt_pos.mpr hpos)
  simp only [projectToSphere, sqNorm]
  field_simp
  ring

theorem subdivideStep_radius (radius : ℝ) (tris : List Tri)
    (hv : ∀ t ∈ tris, ∀ w ∈ triVerts t, sqNorm w = radius ^ 2)
    (hm : NoZeroMid tris) :
    ∀ t ∈ subdivideStep radius tris, ∀ w ∈ triVerts t, sqNorm w = radius ^ 2 := by
  intro t ht w hw
  simp only [subdivideStep, List.mem_flatMap] at ht
  obtain ⟨s, hs, hchild⟩ := ht
  have h0 := hv s hs s.1 (by simp [triVerts])
  have h1 := hv s hs s.2.1 (by simp [triVerts])
  have h2 := hv s hs s.2.2 (by simp [triVerts])
  have hm01 : sqNorm (projectToSphere (midpoint s.1 s.2.1) radius) = radius ^ 2 :=
    sqNorm_projectToSphere _ _ (hm s hs _ (by simp [midpoints]))
  have hm12 : sqNorm (projectToSphere (midpoint s.2.1 s.2.2) radius) = radius ^ 2 :=
    sqNorm_projectToSphere _ _ (hm s hs _ (by simp [midpoints]))
  have hm20 : sqNorm (projectToSphere (midpoint s.2.2 s.1) radius) = radius ^ 2 :=
    sqNorm_projectToSphere _ _ (hm s hs _ (by simp [midpoints]))
  simp only [List.mem_cons, List.not_mem_nil, or_false] at hchild
  rcases hchild with rfl | rfl | rfl | rfl <;>
    (simp only [triVerts, List.mem_cons, List.not_mem_nil, or_false] at hw;
     rcases hw with rfl | rfl | rfl <;> assumption)

theorem iterSubdivide_succ (radius : ℝ) (n : ℕ) (ts : List Tri) :
    iterSubdivide radius (n + 1) ts =
      subdivideStep radius (iterSubdivide radius n ts) := by
  induction n generalizing ts with
  | zero => rfl
  | succ k ih =>
    show iterSubdivide radius (k + 1) (subdivideStep radius ts) = _
    rw [ih (subdivideStep radius ts)]
    rfl

theorem iterSubdivide_radius (radius : ℝ) (level : ℕ) (ts : List Tri)
    (hv : ∀ t ∈ ts, ∀ w ∈ triVerts t, sqNorm w = radius ^ 2)
    (hm : ∀ l < level, NoZeroMid (iterSubdivide radius l ts)) :
    ∀ t ∈ iterSubdivide radius level ts, ∀ w ∈ triVerts t, sqNorm w = radius ^ 2 := by
  induction level with
  | zero => simpa [iterSubdivide] using hv
  | succ n ih =>
    rw [iterSubdivide_succ]
    exact subdivideStep_radius radius _
      (ih fun l hl => hm l (Nat.lt_succ_of_lt hl))
      (hm n (Nat.lt_succ_self n))

theorem toTriangles_verts (vertices : List Vec3) :
    ∀ idx : List ℕ, (∀ i ∈ idx, i < vertices.length) →
      ∀ t ∈ toTriangles vertices idx, ∀ w ∈ triVerts t, w ∈ vertices
  | i0 :: i1 :: i2 :: rest, hidx => by
    intro t ht w hw
    simp only [toTriangles, List.mem_cons] at ht
    rcases ht with rfl | ht
    · simp only [triVerts, List.mem_cons, List.not_mem_nil, or_false] at hw
      rcases hw with rfl | rfl | rfl
      · rw [List.getD_eq_getElem _ _ (hidx i0 (by simp))]
        exact List.getElem_mem _
      · rw [List.getD_eq_getElem _ _ (hidx i1 (by simp))]
        exact List.getElem_mem _
      · rw [List.getD_eq_getElem _ _ (hidx i2 (by simp))]
        exact List.getElem_mem _
    · exact toTriangles_verts vertices rest
        (fun i hi => hidx i (by simp [hi])) t ht w hw
  | [], _ => by intro t ht; simp [toTriangles] at ht
  | [i], _ => by intro t ht; simp [toTriangles] at ht
  | [i, j], _ => by intro t ht; simp [toTriangles] at ht

/-- Claim C4: every vertex produced by the Spherical Projector at height 0
lies at distance `r` from the origin (squared norm `r²`), and every vertex
produced by the Recursive Subdivider — original corners and all re-projected
midpoints at every level — lies at distance `radius` from the origin,
assuming in-range indices, input vertices at radius `radius`, and no
zero-length midpoint at any level. -/
theorem claim_C4 :
    (∀ lat lon r : ℝ, sqNorm (latLngToVector3 lat lon r 0) = r ^ 2) ∧
    (∀ (radius : ℝ) (vertices : List Vec3) (idx : List ℕ) (level : ℕ),
      (∀ v ∈ vertices, sqNorm v = radius ^ 2) →
      (∀ i ∈ idx, i < vertices.length) →
      (∀ l < level, NoZeroMid (iterSubdivide radius l (toTriangles vertices idx))) →
      ∀ t ∈ subdivideTriangles vertices idx level radius,
        ∀ w ∈ triVerts t, sqNorm w = radius ^ 2) := by
  constructor
  · intro lat lon r
    have h1 := Real.sin_sq_add_cos_sq (-(lon + 180) * π / 180)
    have h2 := Real.sin_sq_add_cos_sq ((90 - lat) * π / 180)
    simp only [latLngToVector3, sqNorm]
    linear_combination
      ((r + 0) ^ 2 * Real.sin ((90 - lat) * π / 180) ^ 2) * h1 + (r + 0) ^ 2 * h2
  · intro radius vertices idx level hrad hidx hm
    exact iterSubdivide_radius radius level (toTriangles vertices idx)
      (fun t ht w hw => hrad w (toTriangles_verts vertices idx hidx t ht w hw)) hm

/-- Witness for claim C4: the octant triangle on the unit sphere, one
subdivision level; all hypotheses hold and every output vertex has squared
norm 1. -/
theorem claim_C4_witness :
    (∀ v ∈ [({ x := 1, y := 0, z := 0 } : Vec3), { x := 0, y := 1, z := 0 },
        { x := 0, y := 0, z := 1 }], sqNorm v = (1 : ℝ) ^ 2) ∧
    (∀ i ∈ ([0, 1, 2] : List ℕ),
      i < ([({ x := 1, y := 0, z := 0 } : Vec3), { x := 0, y := 1, z := 0 },
        { x := 0, y := 0, z := 1 }]).length) ∧
    (∀ l < 1, NoZeroMid (iterSubdivide 1 l
      (toTriangles [({ x := 1, y := 0, z := 0 } : Vec3), { x := 0, y := 1, z := 0 },
        { x := 0, y := 0, z := 1 }] [0, 1, 2]))) ∧
    ∀ t ∈ subdivideTriangles [({ x := 1, y := 0, z := 0 } : Vec3),
        { x := 0, y := 1, z := 0 }, { x := 0, y := 0, z := 1 }] [0, 1, 2] 1 1,
      ∀ w ∈ triVerts t, sqNorm w = (1 : ℝ) ^ 2 := by
  have hrad : ∀ v ∈ [({ x := 1, y := 0, z := 0 } : Vec3), { x := 0, y := 1, z := 0 },
      { x := 0, y := 0, z := 1 }], sqNorm v = (1 : ℝ) ^ 2 := by
    intro v hv
    simp only [List.mem_cons, List.not_mem_nil, or_false] at hv
    rcases hv with rfl | rfl | rfl <;> · simp only [sqNorm]; norm_num
  have hidx : ∀ i ∈ ([0, 1, 2] : List ℕ),
      i < ([({ x := 1, y := 0, z := 0 } : Vec3), { x := 0, y := 1, z := 0 },
        { x := 0, y := 0, z := 1 }]).length := by
    intro i hi
    simp only [List.mem_cons, List.not_mem_nil, or_false] at hi
    rcases hi with rfl | rfl | rfl <;> simp
  have hmid : ∀ l < 1, NoZeroMid (iterSubdivide 1 l
      (toTriangles [({ x := 1, y := 0, z := 0 } : Vec3), { x := 0, y := 1, z := 0 },
        { x := 0, y := 0, z := 1 }] [0, 1, 2])) := by
    intro l hl
    have hl0 : l = 0 := by omega
    subst hl0
    intro t ht m hmem
    simp only [iterSubdivide, toTriangles, List.getD, List.get?, List.mem_cons,
      List.not_mem_nil, or_false, Option.getD_some] at ht
    subst ht
    simp only [midpoints, midpoint, List.mem_cons, List.not_mem_nil, or_false] at hmem
    rcases hmem with rfl | rfl | rfl <;> · simp only [sqNorm]; norm_num
  exact ⟨hrad, hidx, hmid, claim_C4.2 1 _ [0, 1, 2] 1 hrad hidx hmid⟩

/-- Claim C9: at every subdivision step each input triangle's corner
vertices reappear unchanged as corners of its three corner-child triangles;
every vertex of the output is either an unchanged input corner or a
projected edge midpoint; and consequently every input corner survives, with
the same coordinates, through any number of subdivision levels. -/
theorem claim_C9 :
    (∀ (radius : ℝ) (tris : List Tri) (v0 v1 v2 : Vec3),
      (v0, v1, v2) ∈ tris →
        (v0, projectToSphere (midpoint v0 v1) radius,
          projectToSphere (midpoint v2 v0) radius) ∈ subdivideStep radius tris ∧
        (projectToSphere (midpoint v0 v1) radius, v1,
          projectToSphere (midpoint v1 v2) radius) ∈ subdivideStep radius tris ∧
        (projectToSphere (midpoint v2 v0) radius,
          projectToSphere (midpoint v1 v2) radius, v2) ∈ subdivideStep radius tris) ∧
    (∀ (radius : ℝ) (tris : List Tri) (t : Tri), t ∈ subdivideStep radius tris →
      ∀ w ∈ triVerts t,
        (∃ s ∈ tris, w ∈ triVerts s) ∨
        (∃ s ∈ tris, ∃ m ∈ midpoints s, w = projectToSphere m radius)) ∧
    (∀ (radius : ℝ) (level : ℕ) (tris : List Tri) (t : Tri), t ∈ tris →
      ∀ w ∈ triVerts t, ∃ u ∈ iterSubdivide radius level tris, w ∈ triVerts u) := by
  refine ⟨?_, ?_, ?_⟩
  · intro radius tris v0 v1 v2 h
    refine ⟨?_, ?_, ?_⟩ <;>
      · simp only [subdivideStep, List.mem_flatMap]
        exact ⟨(v0, v1, v2), h, by simp⟩
  · intro radius tris t ht w hw
    simp only [subdivideStep, List.mem_flatMap] at ht
    obtain ⟨s, hs, hchild⟩ := ht
    simp only [List.mem_cons, List.not_mem_nil, or_false] at hchild
    rcases hchild with rfl | rfl | rfl | rfl <;>
      simp only [triVerts, List.mem_cons, List.not_mem_nil, or_false] at hw
    · rcases hw with rfl | rfl | rfl
      · exact Or.inl ⟨s, hs, by simp [triVerts]⟩
      · exact Or.inr ⟨s, hs, midpoint s.1 s.2.1, by simp [midpoints], rfl⟩
      · exact Or.inr ⟨s, hs, midpoint s.2.2 s.1, by simp [midpoints], rfl⟩
    · rcases hw with rfl | rfl | rfl
      · exact Or.inr ⟨s, hs, midpoint s.1 s.2.1, by simp [midpoints], rfl⟩
      · exact Or.inl ⟨s, hs, by simp [triVerts]⟩
      · exact Or.inr ⟨s, hs, midpoint s.2.1 s.2.2, by simp [midpoints], rfl⟩
    · rcases hw with rfl | rfl | rfl
      · exact Or.inr ⟨s, hs, midpoint s.2.2 s.1, by simp [midpoints], rfl⟩
      · exact Or.inr ⟨s, hs, midpoint s.2.1 s.2.2, by simp [midpoints], rfl⟩
      · exact Or.inl ⟨s, hs, by simp [triVerts]⟩
    · rcases hw with rfl | rfl | rfl
      · exact Or.inr ⟨s, hs, midpoint s.1 s.2.1, by simp [midpoints], rfl⟩
      · exact Or.inr ⟨s, hs, midpoint s.2.1 s.2.2, by simp [midpoints], rfl⟩
      · exact Or.inr ⟨s, hs, midpoint s.2.2 s.1, by simp [midpoints], rfl⟩
  · intro radius level
    induction level with
    | zero => intro tris t ht w hw; exact ⟨t, ht, hw⟩
    | succ n ih =>
      intro tris t ht w hw
      obtain ⟨v0, v1, v2⟩ := t
      simp only [triVerts, List.mem_cons, List.not_mem_nil, or_false] at hw
      show ∃ u ∈ iterSubdivide radius n (subdivideStep radius tris), w ∈ triVerts u
      rcases hw with rfl | rfl | rfl
      · exact ih (subdivideStep radius tris)
          (w, projectToSphere (midpoint w v1) radius,
            projectToSphere (midpoint v2 w) radius)
          (by simp only [subdivideStep, List.mem_flatMap]
              exact ⟨(w, v1, v2), ht, by simp⟩)
          w (by simp [triVerts])
      · exact ih (subdivideStep radius tris)
          (projectToSphere (midpoint v0 w) radius, w,
            projectToSphere (midpoint w v2) radius)
          (by simp only [subdivideStep, List.mem_flatMap]
              exact ⟨(v0, w, v2), ht, by simp⟩)
          w (by simp [triVerts])
      · exact ih (subdivideStep radius tris)
          (projectToSphere (midpoint w v0) radius,
            projectToSphere (midpoint v1 w) radius, w)
          (by simp only [subdivideStep, List.mem_flatMap]
              exact ⟨(v0, v1, w), ht, by simp⟩)
          w (by simp [triVerts])

/-- Witness for claim C9: the corner (1,0,0) of the octant triangle is still
a corner after two subdivision levels. -/
theorem claim_C9_witness :
    ((({ x := 1, y := 0, z := 0 } : Vec3), ({ x := 0, y := 1, z := 0 } : Vec3),
        ({ x := 0, y := 0, z := 1 } : Vec3)) ∈
      ([((({ x := 1, y := 0, z := 0 } : Vec3), ({ x := 0, y := 1, z := 0 } : Vec3),
        ({ x := 0, y := 0, z := 1 } : Vec3)))] : List Tri)) ∧
    ({ x := 1, y := 0, z := 0 } : Vec3) ∈
      triVerts ((({ x := 1, y := 0, z := 0 } : Vec3), ({ x := 0, y := 1, z := 0 } : Vec3),
        ({ x := 0, y := 0, z := 1 } : Vec3))) ∧
    ∃ u ∈ iterSubdivide 1 2
        ([((({ x := 1, y := 0, z := 0 } : Vec3), ({ x := 0, y := 1, z := 0 } : Vec3),
          ({ x := 0, y := 0, z := 1 } : Vec3)))] : List Tri),
      ({ x := 1, y := 0, z := 0 } : Vec3) ∈ triVerts u :=
  ⟨by simp, by simp [triVerts],
   claim_C9.2.2 1 2
     ([((({ x := 1, y := 0, z := 0 } : Vec3), ({ x := 0, y := 1, z := 0 } : Vec3),
       ({ x := 0, y := 0, z := 1 } : Vec3)))] : List Tri)
     ((({ x := 1, y := 0, z := 0 } : Vec3), ({ x := 0, y := 1, z := 0 } : Vec3),
       ({ x := 0, y := 0, z := 1 } : Vec3)))
     (by simp) ({ x := 1, y := 0, z := 0 } : Vec3) (by simp [triVerts])⟩

/-- A mesh fragment: flat position and normal buffers plus an index
buffer, as returned by `createExtrudedGeometry`. -/
structure Geometry where
  positions : List ℝ
  normals : List ℝ
  indices : List ℕ

/-- The extruded position pushed by `createExtrudedGeometry` for one input
vertex: the vertex moved outward along its normal `v / GLOBE_RADIUS` by
`extrusionHeight`. -/
noncomputable def extrudeVertex (extrusionHeight : ℝ) (v : Vec3) : Vec3 :=
  { x := v.x + v.x / GLOBE_RADIUS * extrusionHeight
    y := v.y + v.y / GLOBE_RADIUS * extrusionHeight
    z := v.z + v.z / GLOBE_RADIUS * extrusionHeight }

/-- The triangle loop of `createExtrudedGeometry`, carrying the running
`vertexIndex` counter. -/
noncomputable def extrudeLoop (extrusionHeight : ℝ) :
    List Tri → ℕ → List ℝ × List ℝ × List ℕ
  | [], _ => ([], [], [])
  | t :: ts, vertexIndex =>
    let rest := extrudeLoop extrusionHeight ts (vertexIndex + 3)
    ((triVerts t).flatMap (fun v =>
        [(extrudeVertex extrusionHeight v).x, (extrudeVertex extrusionHeight v).y,
         (extrudeVertex extrusionHeight v).z]) ++ rest.1,
     (triVerts t).flatMap (fun v =>
        [v.x / GLOBE_RADIUS, v.y / GLOBE_RADIUS, v.z / GLOBE_RADIUS]) ++ rest.2.1,
     vertexIndex :: (vertexIndex + 1) :: (vertexIndex + 2) :: rest.2.2)

/-- `createExtrudedGeometry` from `build-globe.js`. -/
noncomputable def createExtrudedGeometry (triangles : List Tri)
    (extrusionHeight : ℝ) : Geometry :=
  let r := extrudeLoop extrusionHeight triangles 0
  { positions := r.1, normals := r.2.1, indices := r.2.2 }

/-- Regroup a flat coordinate buffer into `Vec3` triples (a spec-side
observation function; leftover coordinates are dropped). -/
def chunk3 : List ℝ → List Vec3
  | a :: b :: c :: rest => { x := a, y := b, z := c } :: chunk3 rest
  | _ => []

/-- Componentwise difference of two vectors (spec-side observation). -/
def vsub (a b : Vec3) : Vec3 := { x := a.x - b.x, y := a.y - b.y, z := a.z - b.z }

/-- Cross product of two vectors (spec-side observation). -/
def cross (a b : Vec3) : Vec3 :=
  { x := a.y * b.z - a.z * b.y
    y := a.z * b.x - a.x * b.z
    z := a.x * b.y - a.y * b.x }

theorem chunk3_flatMap (l : List Vec3) :
    chunk3 (l.flatMap fun v => [v.x, v.y, v.z]) = l := by
  induction l with
  | nil => rfl
  | cons v rest ih =>
    show chunk3 (v.x :: v.y :: v.z :: rest.flatMap fun v => [v.x, v.y, v.z]) =
      v :: rest
    rw [chunk3, ih]

theorem extrudeLoop_positions (extrusionHeight : ℝ) (tris : List Tri) (n : ℕ) :
    (extrudeLoop extrusionHeight tris n).1 =
      (tris.flatMap triVerts).flatMap fun v =>
        [(extrudeVertex extrusionHeight v).x, (extrudeVertex extrusionHeight v).y,
         (extrudeVertex extrusionHeight v).z] := by
  induction tris generalizing n with
  | nil => rfl
  | cons t ts ih =>
    simp only [extrudeLoop, List.flatMap_cons, List.flatMap_append, ih]

theorem createExtrudedGeometry_positions (extrusionHeight : ℝ) (tris : List Tri) :
    chunk3 (createExtrudedGeometry tris extrusionHeight).positions =
      (tris.flatMap triVerts).map (extrudeVertex extrusionHeight) := by
  show chunk3 (extrudeLoop extrusionHeight tris 0).1 = _
  rw [extrudeLoop_positions]
  have : ((tris.flatMap triVerts).flatMap fun v =>
      [(extrudeVertex extrusionHeight v).x, (extrudeVertex extrusionHeight v).y,
       (extrudeVertex extrusionHeight v).z]) =
      ((tris.flatMap triVerts).map (extrudeVertex extrusionHeight)).flatMap
        fun v => [v.x, v.y, v.z] := by
    rw [List.flatMap_map]
  rw [this, chunk3_flatMap]

/-- Claim C3: if every input vertex lies at distance `GLOBE_RADIUS` from the
origin, then every position vertex emitted by the Extruder lies at distance
`GLOBE_RADIUS + h` (squared norm `(GLOBE_RADIUS + h)²`, exactly in the real
model), and its displacement from the original vertex is parallel to that
vertex (cross product exactly zero). -/
theorem claim_C3 (triangles : List Tri) (h : ℝ)
    (hrad : ∀ t ∈ triangles, ∀ v ∈ triVerts t, sqNorm v = GLOBE_RADIUS ^ 2) :
    ∀ p ∈ chunk3 (createExtrudedGeometry triangles h).positions,
      sqNorm p = (GLOBE_RADIUS + h) ^ 2 ∧
      ∃ t ∈ triangles, ∃ v ∈ triVerts t,
        p = extrudeVertex h v ∧ cross (vsub p v) v = { x := 0, y := 0, z := 0 } := by
  intro p hp
  rw [createExtrudedGeometry_positions] at hp
  simp only [List.mem_map, List.mem_flatMap] at hp
  obtain ⟨v, ⟨t, ht, hv⟩, rfl⟩ := hp
  have hv1 : sqNorm v = 1 := by
    have hh := hrad t ht v hv
    simp only [GLOBE_RADIUS] at hh
    norm_num at hh
    exact hh
  refine ⟨?_, t, ht, v, hv, rfl, ?_⟩
  · have hx : sqNorm v = v.x ^ 2 + v.y ^ 2 + v.z ^ 2 := rfl
    rw [hx] at hv1
    simp only [extrudeVertex, sqNorm, GLOBE_RADIUS]
    norm_num
    linear_combination (1 + h) ^ 2 * hv1
  · simp only [extrudeVertex, vsub, cross, GLOBE_RADIUS]
    ext <;> · norm_num; ring

/-- Witness for claim C3: the octant triangle on the unit sphere, extrusion
height 0.02. -/
theorem claim_C3_witness :
    (∀ t ∈ ([((({ x := 1, y := 0, z := 0 } : Vec3), ({ x := 0, y := 1, z := 0 } : Vec3),
        ({ x := 0, y := 0, z := 1 } : Vec3)))] : List Tri),
      ∀ v ∈ triVerts t, sqNorm v = GLOBE_RADIUS ^ 2) ∧
    ∀ p ∈ chunk3 (createExtrudedGeometry
        ([((({ x := 1, y := 0, z := 0 } : Vec3), ({ x := 0, y := 1, z := 0 } : Vec3),
          ({ x := 0, y := 0, z := 1 } : Vec3)))] : List Tri) EXTRUSION_HEIGHT).positions,
      sqNorm p = (GLOBE_RADIUS + EXTRUSION_HEIGHT) ^ 2 ∧
      ∃ t ∈ ([((({ x := 1, y := 0, z := 0 } : Vec3), ({ x := 0, y := 1, z := 0 } : Vec3),
          ({ x := 0, y := 0, z := 1 } : Vec3)))] : List Tri),
        ∃ v ∈ triVerts t, p = extrudeVertex EXTRUSION_HEIGHT v ∧
          cross (vsub p v) v = { x := 0, y := 0, z := 0 } := by
  have hrad : ∀ t ∈ ([((({ x := 1, y := 0, z := 0 } : Vec3),
      ({ x := 0, y := 1, z := 0 } : Vec3),
      ({ x := 0, y := 0, z := 1 } : Vec3)))] : List Tri),
      ∀ v ∈ triVerts t, sqNorm v = GLOBE_RADIUS ^ 2 := by
    intro t ht v hv
    simp only [List.mem_cons, List.not_mem_nil, or_false] at ht
    subst ht
    simp only [triVerts, List.mem_cons, List.not_mem_nil, or_false] at hv
    rcases hv with rfl | rfl | rfl <;> · simp only [sqNorm, GLOBE_RADIUS]; norm_num
  exact ⟨hrad, claim_C3 _ EXTRUSION_HEIGHT hrad⟩

/-- Modelled from the spec: squared distance from point `p` to the segment
`p1`–`p2` (the primitive of the Douglas–Peucker simplifier; the simplifier
itself is the external `simplify-js` dependency, whose source is not part of
this repository). The closest point of the segment is found by clamping the
projection parameter, and the returned value is the squared distance to it. -/
def segClosest (p p1 p2 : ℚ × ℚ) : ℚ × ℚ :=
  let x := p1.1
  let y := p1.2
  let dx := p2.1 - x
  let dy := p2.2 - y
  if dx ≠ 0 ∨ dy ≠ 0 then
    let t := ((p.1 - x) * dx + (p.2 - y) * dy) / (dx * dx + dy * dy)
    if t > 1 then (p2.1, p2.2)
    else if t > 0 then (x + dx * t, y + dy * t)
    else (x, y)
  else (x, y)

def getSqSegDist (p p1 p2 : ℚ × ℚ) : ℚ :=
  (p.1 - (segClosest p p1 p2).1) * (p.1 - (segClosest p p1 p2).1) +
    (p.2 - (segClosest p p1 p2).2) * (p.2 - (segClosest p p1 p2).2)

theorem getSqSegDist_nonneg (p p1 p2 : ℚ × ℚ) : 0 ≤ getSqSegDist p p1 p2 :=
  add_nonneg (mul_self_nonneg _) (mul_self_nonneg _)

/-- Index and value of the first maximal element of a list of distances
(the left-to-right maximum scan of the Douglas–Peucker recursion). -/
def argmax2 : List ℚ → Option (ℕ × ℚ)
  | [] => none
  | d :: rest =>
    match argmax2 rest with
    | none => some (0, d)
    | some (i, m) => if m > d then some (i + 1, m) else some (0, d)

theorem argmax2_valid : ∀ (l : List ℚ) (i : ℕ) (d : ℚ),
    argmax2 l = some (i, d) → ∃ h : i < l.length, l.get ⟨i, h⟩ = d
  | [], i, d, h => by simp [argmax2] at h
  | a :: rest, i, d, h => by
    rw [argmax2] at h
    cases hrec : argmax2 rest with
    | none =>
      rw [hrec] at h
      dsimp only at h
      injection h with h2
      injection h2 with h3 h4
      subst h3
      subst h4
      exact ⟨by simp, rfl⟩
    | some im =>
      obtain ⟨j, m⟩ := im
      rw [hrec] at h
      dsimp only at h
      by_cases hm : m > a
      · rw [if_pos hm] at h
        injection h with h2
        injection h2 with h3 h4
        subst h3
        subst h4
        obtain ⟨hj, hget⟩ := argmax2_valid rest j m hrec
        exact ⟨Nat.succ_lt_succ hj, hget⟩
      · rw [if_neg hm] at h
        injection h with h2
        injection h2 with h3 h4
        subst h3
        subst h4
        exact ⟨by simp, rfl⟩

theorem argmax2_cons_ne_none (x : ℚ) (l : List ℚ) : argmax2 (x :: l) ≠ none := by
  rw [argmax2]
  cases argmax2 l with
  | none => simp
  | some im =>
    obtain ⟨i, m⟩ := im
    dsimp only
    split <;> simp

/-- Modelled from the spec: the Douglas–Peucker recursion of the Ring
Simplifier (external `simplify-js`, §4.1 of the spec).  `a` and `b` are the
segment endpoints, `mid` the points strictly between them; the point
farthest from the segment is kept whenever its squared distance reaches the
squared tolerance — so that, as the spec requires, tolerance 0 keeps every
point — and the two sides are simplified recursively.  `fuel` bounds the
recursion depth by the number of interior points. -/
def dpRec (sqTolerance : ℚ) : ℕ → ℚ × ℚ → ℚ × ℚ → List (ℚ × ℚ) → List (ℚ × ℚ)
  | 0, _, _, _ => []
  | fuel + 1, a, b, mid =>
    match argmax2 (mid.map fun p => getSqSegDist p a b) with
    | none => []
    | some (i, d) =>
      if sqTolerance ≤ d then
        dpRec sqTolerance fuel a (mid.getD i a) (mid.take i) ++
          mid.getD i a :: dpRec sqTolerance fuel (mid.getD i a) b (mid.drop (i + 1))
      else []

/-- Modelled from the spec: `simplify(points, tolerance, true)` of the
external `simplify-js` dependency — endpoint-preserving Douglas–Peucker
simplification of an open polyline (the `highestQuality` path, which is the
one `build-globe.js` takes). Lists of fewer than three points are returned
unchanged. -/
def simplify (points : List (ℚ × ℚ)) (tolerance : ℚ) : List (ℚ × ℚ) :=
  match points with
  | [] => []
  | [a] => [a]
  | [a, b] => [a, b]
  | a :: b :: c :: rest =>
    a :: (dpRec (tolerance * tolerance) (b :: c :: rest).dropLast.length a
      ((b :: c :: rest).getLastD a) (b :: c :: rest).dropLast ++
      [(b :: c :: rest).getLastD a])

/-- `simplifyCoordinates` from `build-globe.js`: convert the ring to point
records, simplify, convert back. -/
def simplifyCoordinates (coords : List (ℚ × ℚ)) (tolerance : ℚ) : List (ℚ × ℚ) :=
  (simplify (coords.map fun c => (c.1, c.2)) tolerance).map fun p => (p.1, p.2)

theorem dpRec_zero_tol : ∀ (fuel : ℕ) (a b : ℚ × ℚ) (mid : List (ℚ × ℚ)),
    mid.length ≤ fuel → dpRec 0 fuel a b mid = mid
  | 0, a, b, mid, h => by
    have : mid = [] := List.length_eq_zero.mp (Nat.le_zero.mp h)
    simp [this, dpRec]
  | fuel + 1, a, b, mid, h => by
    cases hmid : mid with
    | nil => simp [dpRec, argmax2]
    | cons p ps =>
      subst hmid
      rw [dpRec]
      cases harg : argmax2 ((p :: ps).map fun q => getSqSegDist q a b) with
      | none =>
        rw [List.map_cons] at harg
        exact absurd harg (argmax2_cons_ne_none _ _)
      | some id0 =>
        obtain ⟨i, d⟩ := id0
        dsimp only
        obtain ⟨hi, hget⟩ := argmax2_valid _ i d harg
        have hilen : i < (p :: ps).length := by simpa using hi
        have hd : 0 ≤ d := by
          rw [← hget]
          simp only [List.get_eq_getElem, List.getElem_map]
          exact getSqSegDist_nonneg _ _ _
        rw [if_pos hd]
        have htake : ((p :: ps).take i).length ≤ fuel := by
          simp only [List.length_take, List.length_cons]
          simp only [List.length_cons] at hilen h
          omega
        have hdrop : ((p :: ps).drop (i + 1)).length ≤ fuel := by
          simp only [List.length_drop, List.length_cons]
          simp only [List.length_cons] at hilen h
          omega
        rw [dpRec_zero_tol fuel _ _ _ htake, dpRec_zero_tol fuel _ _ _ hdrop]
        rw [List.getD_eq_getElem _ _ hilen]
        rw [List.getElem_cons_drop _ _ hilen]
        exact List.take_append_drop ..

theorem simplify_zero_tol (points : List (ℚ × ℚ)) (h : 3 ≤ points.length) :
    simplify points 0 = points := by
  match points, h with
  | a :: b :: c :: rest, _ =>
    rw [simplify]
    rw [show (0 : ℚ) * 0 = 0 by norm_num]
    rw [dpRec_zero_tol _ _ _ _ (le_refl _)]
    have hne : (b :: c :: rest) ≠ [] := by simp
    rw [List.getLastD_eq_getLast?, List.getLast?_eq_getLast_of_ne_nil hne]
    simp only [Option.getD_some]
    rw [List.dropLast_append_getLast hne]

/-- Claim C2 (the Ring Simplifier is the external `simplify-js` library,
modelled from the spec): for every ring with at least 3 points, simplifying
with tolerance ε = 0 returns the input ring unchanged — same pairs, same
order, nothing dropped. -/
theorem claim_C2 (coords : List (ℚ × ℚ)) (h : 3 ≤ coords.length) :
    simplifyCoordinates coords 0 = coords := by
  unfold simplifyCoordinates
  have hmap : (coords.map fun c => (c.1, c.2)) = coords := by
    simp
  rw [hmap, simplify_zero_tol coords h, hmap]

/-- Witness for claim C2: a concrete 4-point ring with a duplicate point is
returned unchanged at tolerance 0. -/
theorem claim_C2_witness :
    3 ≤ ([((0 : ℚ), (0 : ℚ)), (1, 0), (1, 0), (0, 1)] : List (ℚ × ℚ)).length ∧
    simplifyCoordinates [((0 : ℚ), (0 : ℚ)), (1, 0), (1, 0), (0, 1)] 0 =
      [((0 : ℚ), (0 : ℚ)), (1, 0), (1, 0), (0, 1)] :=
  ⟨by decide, claim_C2 [((0 : ℚ), (0 : ℚ)), (1, 0), (1, 0), (0, 1)] (by decide)⟩

/-- The MultiPolygon merge loop of `processCountry`: concatenate positions
and normals, re-base indices by the running vertex-count offset
(`positions.length / 3` per appended sub-polygon). -/
def combineLoop : List Geometry → ℕ → Geometry
  | [], _ => { positions := [], normals := [], indices := [] }
  | g :: rest, vertexOffset =>
    let r := combineLoop rest (vertexOffset + g.positions.length / 3)
    { positions := g.positions ++ r.positions
      normals := g.normals ++ r.normals
      indices := g.indices.map (· + vertexOffset) ++ r.indices }

/-- Merge the surviving sub-polygon geometries of a MultiPolygon feature,
starting with vertex offset 0. -/
def combineGeometries (gs : List Geometry) : Geometry := combineLoop gs 0

/-- An RGB triple in the pipeline's normalized 0–1 encoding. -/
abbrev Color := ℚ × ℚ × ℚ

/-- The fixed fallback palette of `generateRandomColor` in
`build-globe.js` (25 muted tones, in source order). -/
def colorPalettes : List Color :=
  [(0.15, 0.5, 0.2), (0.1, 0.4, 0.15), (0.2, 0.45, 0.25),
   (0.15, 0.45, 0.15), (0.2, 0.5, 0.15),
   (0.5, 0.5, 0.15), (0.45, 0.45, 0.1), (0.5, 0.4, 0.1),
   (0.5, 0.35, 0.15), (0.45, 0.3, 0.1), (0.5, 0.3, 0.1),
   (0.3, 0.15, 0.5), (0.25, 0.1, 0.45), (0.35, 0.2, 0.5),
   (0.15, 0.4, 0.45), (0.1, 0.35, 0.4), (0.2, 0.45, 0.5),
   (0.15, 0.45, 0.5), (0.1, 0.4, 0.45),
   (0.15, 0.45, 0.4), (0.2, 0.4, 0.35), (0.15, 0.5, 0.45),
   (0.4, 0.3, 0.2), (0.35, 0.25, 0.15), (0.45, 0.35, 0.2)]

/-- `generateRandomColor` from `build-globe.js`, with the random draw
`Math.floor(Math.random() * 25)` modelled as an explicit index. -/
def generateRandomColor (randIdx : ℕ) : Color :=
  colorPalettes.getD randIdx (0, 0, 0)

/-- The `toLowerCase().replace(/\s+/g, '')` normalization applied to both
names before the substring comparison in `processCountry`. -/
def normalizeName (s : String) : List Char :=
  (s.data.map Char.toLower).filter fun c => !c.isWhitespace

/-- Does `hay` start with `needle`? (helper for the substring check). -/
def listStarts : List Char → List Char → Bool
  | _, [] => true
  | [], _ :: _ => false
  | a :: as, b :: bs => a == b && listStarts as bs

/-- JavaScript `hay.includes(needle)`: `needle` occurs contiguously in
`hay`. -/
def listIncludes : List Char → List Char → Bool
  | [], needle => needle.isEmpty
  | a :: as, needle => listStarts (a :: as) needle || listIncludes as needle

/-- The match condition of the color-config scan in `processCountry`:
`configLower.includes(fileLower) || fileLower.includes(configLower)`. -/
def colorMatches (configCountryName countryName : String) : Bool :=
  listIncludes (normalizeName configCountryName) (normalizeName countryName) ||
    listIncludes (normalizeName countryName) (normalizeName configCountryName)

/-- The `for (const configCountryName in colorConfig)` scan of
`processCountry`: first matching key (in declared order) supplies the
color. -/
def findConfigColor : List (String × Color) → String → Option Color
  | [], _ => none
  | (k, c) :: rest, countryName =>
    if colorMatches k countryName then some c
    else findConfigColor rest countryName

/-- The final region color of `processCountry`: the config match if any,
otherwise the random palette pick. -/
def resolveCountryColor (colorConfig : List (String × Color))
    (countryName : String) (randIdx : ℕ) : Color :=
  match findConfigColor colorConfig countryName with
  | some c => c
  | none => generateRandomColor randIdx

/-- Subdivision-level configuration constants from `build-globe.js`. -/
def SUBDIVISION_LEVEL_DEFAULT : ℕ := 0

def SUBDIVISION_LEVEL_LARGE : ℕ := 1

def SUBDIVISION_LEVEL_VERY_LARGE : ℕ := 2

def VERY_LARGE_COUNTRIES : List String := ["russia", "canada"]

def LARGE_COUNTRIES : List String :=
  ["china", "usa", "brazil", "australia", "india", "argentina",
   "kazakhstan", "algeria"]

/-- The subdivision-level selection at the top of `processCountry`. -/
def subdivisionLevelFor (countryName : String) : ℕ :=
  if VERY_LARGE_COUNTRIES.contains countryName then SUBDIVISION_LEVEL_VERY_LARGE
  else if LARGE_COUNTRIES.contains countryName then SUBDIVISION_LEVEL_LARGE
  else SUBDIVISION_LEVEL_DEFAULT

/-- `processPolygon` (the inner closure of `processCountry`): simplify the
outer ring, triangulate with the external `earcutF`, project, subdivide and
extrude; `none` at each degenerate-geometry early return. -/
noncomputable def processPolygon (earcutF : List ℚ → List ℕ)
    (subdivisionLevel : ℕ) (coordinates : List (List (ℚ × ℚ))) :
    Option Geometry :=
  let outerCoords := coordinates.headD []
  if outerCoords.length < 3 then none
  else
    let simplifiedCoords := simplifyCoordinates outerCoords SIMPLIFICATION_TOLERANCE
    if simplifiedCoords.length < 3 then none
    else
      let flatCoords := simplifiedCoords.flatMap fun coord => [coord.1, coord.2]
      let triangleIndices := earcutF flatCoords
      if triangleIndices.length = 0 then none
      else
        let vertices3D := simplifiedCoords.map fun coord =>
          latLngToVector3 (coord.2 : ℝ) (coord.1 : ℝ) GLOBE_RADIUS 0
        some (createExtrudedGeometry
          (subdivideTriangles vertices3D triangleIndices subdivisionLevel GLOBE_RADIUS)
          EXTRUSION_HEIGHT)

/-- The geometry of one GeoJSON feature, as inspected by `processCountry`
(`Polygon`, `MultiPolygon`, or any other type, which is ignored). -/
inductive FeatureGeometry where
  | polygon (coordinates : List (List (ℚ × ℚ)))
  | multiPolygon (coordinates : List (List (List (ℚ × ℚ))))
  | other

/-- The per-feature geometry dispatch of `processCountry`: polygons go
through `processPolygon`; multi-polygons process every sub-polygon, drop the
rejected ones, and merge the survivors (none surviving drops the feature);
other geometry types produce nothing. -/
noncomputable def processFeature (earcutF : List ℚ → List ℕ)
    (subdivisionLevel : ℕ) : FeatureGeometry → Option Geometry
  | .polygon cs => processPolygon earcutF subdivisionLevel cs
  | .multiPolygon pss =>
    let allGeometries :=
      (pss.map (processPolygon earcutF subdivisionLevel)).filterMap id
    if 0 < allGeometries.length then some (combineGeometries allGeometries)
    else none
  | .other => none

/-- A named mesh fragment pushed onto `geometries` by `processCountry`
(and later turned into one mesh + node by `buildGlobe`). -/
structure NamedGeom where
  name : String
  geometry : Geometry
  color : Color

/-- The `features.forEach((feature, featureIdx) => ...)` loop of
`processCountry`: surviving features are named
`countryName_featureIdx` with the loop index. -/
noncomputable def processFeatures (earcutF : List ℚ → List ℕ)
    (countryName : String) (countryColor : Color) (subdivisionLevel : ℕ) :
    List FeatureGeometry → ℕ → List NamedGeom
  | [], _ => []
  | f :: rest, featureIdx =>
    match processFeature earcutF subdivisionLevel f with
    | none =>
      processFeatures earcutF countryName countryColor subdivisionLevel rest
        (featureIdx + 1)
    | some g =>
      { name := countryName ++ "_" ++ toString featureIdx, geometry := g,
        color := countryColor } ::
        processFeatures earcutF countryName countryColor subdivisionLevel rest
          (featureIdx + 1)

/-- The result record of `processCountry`. -/
structure CountryResult where
  countryName : String
  geometries : List NamedGeom
  color : Color

/-- `processCountry` from `build-globe.js`, with the parsed feature list,
the color config and the random palette index as explicit inputs. -/
noncomputable def processCountry (earcutF : List ℚ → List ℕ)
    (countryName : String) (features : List FeatureGeometry)
    (colorConfig : List (String × Color)) (randIdx : ℕ) : CountryResult :=
  let subdivisionLevel := subdivisionLevelFor countryName
  let countryColor := resolveCountryColor colorConfig countryName randIdx
  { countryName := countryName
    geometries :=
      processFeatures earcutF countryName countryColor subdivisionLevel features 0
    color := countryColor }

/-- The vertex-color buffer built per geometry in `buildGlobe`: the region
color broadcast to every vertex (one loop iteration per vertex). -/
def colorBuffer : ℕ → Color → List ℚ
  | 0, _ => []
  | n + 1, c => c.1 :: c.2.1 :: c.2.2 :: colorBuffer n c

/-- Regroup a flat color buffer into RGB triples (spec-side observation). -/
def chunk3Color : List ℚ → List Color
  | a :: b :: c :: rest => (a, b, c) :: chunk3Color rest
  | _ => []

/-- One region input of the `buildGlobe` loop: the file base name, its
parsed features and the random palette index used if no config color
matches. -/
structure RegionInput where
  countryName : String
  features : List FeatureGeometry
  randIdx : ℕ

/-- The per-country loop of `buildGlobe`: every country's surviving
fragments become scene nodes, in order. -/
noncomputable def buildNodes (earcutF : List ℚ → List ℕ)
    (colorConfig : List (String × Color)) (regions : List RegionInput) :
    List NamedGeom :=
  regions.flatMap fun r =>
    (processCountry earcutF r.countryName r.features colorConfig r.randIdx).geometries

theorem combineLoop_positions : ∀ (gs : List Geometry) (off : ℕ),
    (combineLoop gs off).positions = (gs.map Geometry.positions).flatten
  | [], _ => rfl
  | g :: rest, off => by
    simp only [combineLoop, List.map_cons, List.flatten_cons]
    rw [combineLoop_positions rest]

theorem combineLoop_normals : ∀ (gs : List Geometry) (off : ℕ),
    (combineLoop gs off).normals = (gs.map Geometry.normals).flatten
  | [], _ => rfl
  | g :: rest, off => by
    simp only [combineLoop, List.map_cons, List.flatten_cons]
    rw [combineLoop_normals rest]

theorem combineLoop_indices_shift : ∀ (gs : List Geometry) (off : ℕ),
    (combineLoop gs off).indices = (combineLoop gs 0).indices.map (· + off)
  | [], off => by simp [combineLoop]
  | g :: rest, off => by
    simp only [combineLoop]
    rw [combineLoop_indices_shift rest (off + g.positions.length / 3),
      combineLoop_indices_shift rest (0 + g.positions.length / 3)]
    simp only [List.map_append, List.map_map]
    congr 1
    have h2 : ((fun x : ℕ => x + off) ∘ fun x : ℕ => x + (0 + g.positions.length / 3)) =
        fun x : ℕ => x + (off + g.positions.length / 3) := by
      funext x
      simp only [Function.comp_apply]
      omega
    rw [h2]

/-- Claim C6: the MultiPolygon merge concatenates the surviving
sub-polygons' positions and normals in order and re-bases each sub-polygon's
indices by the running vertex count (`positions.length / 3`) of the
sub-polygons before it; two fragments of 4 and 6 vertices merge into 10
vertices with the second fragment's indices shifted by +4; and a
MultiPolygon all of whose sub-polygons are rejected yields no fragment. -/
theorem claim_C6 :
    (∀ gs : List Geometry,
      (combineGeometries gs).positions = (gs.map Geometry.positions).flatten ∧
      (combineGeometries gs).normals = (gs.map Geometry.normals).flatten) ∧
    (∀ (g : Geometry) (gs : List Geometry),
      (combineGeometries (g :: gs)).indices =
        g.indices ++ (combineGeometries gs).indices.map
          (· + g.positions.length / 3)) ∧
    (∀ g1 g2 : Geometry, g1.positions.length = 12 → g2.positions.length = 18 →
      (combineGeometries [g1, g2]).positions.length / 3 = 10 ∧
      (combineGeometries [g1, g2]).indices =
        g1.indices ++ g2.indices.map (· + 4)) ∧
    (∀ (earcutF : List ℚ → List ℕ) (lvl : ℕ)
      (pss : List (List (List (ℚ × ℚ)))),
      (∀ cs ∈ pss, processPolygon earcutF lvl cs = none) →
      processFeature earcutF lvl (FeatureGeometry.multiPolygon pss) = none) := by
  have hcons : ∀ (g : Geometry) (gs : List Geometry),
      (combineGeometries (g :: gs)).indices =
        g.indices ++ (combineGeometries gs).indices.map
          (· + g.positions.length / 3) := by
    intro g gs
    show (combineLoop (g :: gs) 0).indices = _
    simp only [combineLoop]
    rw [combineLoop_indices_shift gs (0 + g.positions.length / 3)]
    simp [combineGeometries]
  refine ⟨?_, hcons, ?_, ?_⟩
  · intro gs
    exact ⟨combineLoop_positions gs 0, combineLoop_normals gs 0⟩
  · intro g1 g2 h1 h2
    constructor
    · have hp := combineLoop_positions [g1, g2] 0
      show (combineLoop [g1, g2] 0).positions.length / 3 = 10
      rw [hp]
      simp [h1, h2]
    · rw [hcons g1 [g2], h1]
      have h21 : (combineGeometries [g2]).indices = g2.indices := by
        show (combineLoop [g2] 0).indices = g2.indices
        simp [combineLoop]
      rw [h21]
  · intro earcutF lvl pss hall
    have hnil : ∀ ps2 : List (List (List (ℚ × ℚ))),
        (∀ cs ∈ ps2, processPolygon earcutF lvl cs = none) →
        (ps2.map (processPolygon earcutF lvl)).filterMap id = [] := by
      intro ps2
      induction ps2 with
      | nil => intro h2; rfl
      | cons cs rest ih =>
        intro h2
        rw [List.map_cons, List.filterMap_cons, id_eq,
          h2 cs (List.mem_cons_self cs rest)]
        exact ih fun cs2 hc2 => h2 cs2 (List.mem_cons_of_mem cs hc2)
    simp only [processFeature]
    rw [hnil pss hall]
    simp

/-- Witness for claim C6: two concrete fragments with 12 and 18 position
scalars (4 and 6 vertices). -/
theorem claim_C6_witness :
    ({ positions := List.replicate 12 (0 : ℝ), normals := List.replicate 12 (0 : ℝ),
        indices := [0, 1, 2] } : Geometry).positions.length = 12 ∧
    ({ positions := List.replicate 18 (0 : ℝ), normals := List.replicate 18 (0 : ℝ),
        indices := [0, 1, 2, 3, 4, 5] } : Geometry).positions.length = 18 ∧
    ((combineGeometries
        [{ positions := List.replicate 12 (0 : ℝ), normals := List.replicate 12 (0 : ℝ),
            indices := [0, 1, 2] },
         { positions := List.replicate 18 (0 : ℝ), normals := List.replicate 18 (0 : ℝ),
            indices := [0, 1, 2, 3, 4, 5] }]).positions.length / 3 = 10 ∧
      (combineGeometries
        [{ positions := List.replicate 12 (0 : ℝ), normals := List.replicate 12 (0 : ℝ),
            indices := [0, 1, 2] },
         { positions := List.replicate 18 (0 : ℝ), normals := List.replicate 18 (0 : ℝ),
            indices := [0, 1, 2, 3, 4, 5] }]).indices =
        ([0, 1, 2] : List ℕ) ++ ([0, 1, 2, 3, 4, 5] : List ℕ).map (· + 4)) :=
  ⟨by simp, by simp,
   claim_C6.2.2.1
     { positions := List.replicate 12 (0 : ℝ), normals := List.replicate 12 (0 : ℝ),
       indices := [0, 1, 2] }
     { positions := List.replicate 18 (0 : ℝ), normals := List.replicate 18 (0 : ℝ),
       indices := [0, 1, 2, 3, 4, 5] }
     (by simp) (by simp)⟩

theorem processFeatures_all_none (earcutF : List ℚ → List ℕ)
    (countryName : String) (countryColor : Color) (lvl : ℕ) :
    ∀ (fs : List FeatureGeometry) (idx : ℕ),
      (∀ f ∈ fs, processFeature earcutF lvl f = none) →
      processFeatures earcutF countryName countryColor lvl fs idx = []
  | [], _, _ => rfl
  | f :: rest, idx, h => by
    rw [processFeatures, h f (List.mem_cons_self f rest)]
    exact processFeatures_all_none earcutF countryName countryColor lvl rest
      (idx + 1) fun f2 h2 => h f2 (List.mem_cons_of_mem f h2)

/-- Claim C7: a polygon whose outer ring has fewer than 3 points (before or
after simplification) or whose triangulation emits zero triangles produces
no fragment (`none`, never an error — the embedding is total); a region all
of whose features are rejected contributes zero mesh nodes; and the region
loop is compositional, so such a region never prevents the remaining
regions from being processed. -/
theorem claim_C7 :
    (∀ (earcutF : List ℚ → List ℕ) (lvl : ℕ)
      (coordinates : List (List (ℚ × ℚ))),
      ((coordinates.headD []).length < 3 ∨
       (simplifyCoordinates (coordinates.headD []) SIMPLIFICATION_TOLERANCE).length < 3 ∨
       earcutF ((simplifyCoordinates (coordinates.headD [])
           SIMPLIFICATION_TOLERANCE).flatMap fun coord => [coord.1, coord.2]) = []) →
      processPolygon earcutF lvl coordinates = none) ∧
    (∀ (earcutF : List ℚ → List ℕ) (countryName : String)
      (features : List FeatureGeometry) (colorConfig : List (String × Color))
      (randIdx : ℕ),
      (∀ f ∈ features,
        processFeature earcutF (subdivisionLevelFor countryName) f = none) →
      (processCountry earcutF countryName features colorConfig randIdx).geometries =
        []) ∧
    (∀ (earcutF : List ℚ → List ℕ) (colorConfig : List (String × Color))
      (pre post : List RegionInput) (r : RegionInput),
      buildNodes earcutF colorConfig (pre ++ r :: post) =
        buildNodes earcutF colorConfig pre ++
          (processCountry earcutF r.countryName r.features colorConfig
            r.randIdx).geometries ++
          buildNodes earcutF colorConfig post) := by
  refine ⟨?_, ?_, ?_⟩
  · intro earcutF lvl coordinates h
    simp only [processPolygon]
    split
    · rfl
    · rename_i h1
      split
      · rfl
      · rename_i h2
        split
        · rfl
        · rename_i h3
          rcases h with h | h | h
          · exact absurd h h1
          · exact absurd h h2
          · exact absurd (by rw [h]; rfl) h3
  · intro earcutF countryName features colorConfig randIdx h
    exact processFeatures_all_none earcutF countryName
      (resolveCountryColor colorConfig countryName randIdx)
      (subdivisionLevelFor countryName) features 0 h
  · intro earcutF colorConfig pre post r
    simp [buildNodes]

/-- Witness for claim C7: a one-feature region whose single polygon has a
2-point outer ring is skipped, and the region contributes zero nodes. -/
theorem claim_C7_witness :
    ((([[((5 : ℚ), (5 : ℚ)), (6, 6)]] : List (List (ℚ × ℚ))).headD []).length < 3 ∨
     (simplifyCoordinates (([[((5 : ℚ), (5 : ℚ)), (6, 6)]] :
         List (List (ℚ × ℚ))).headD []) SIMPLIFICATION_TOLERANCE).length < 3 ∨
     (fun _ : List ℚ => ([] : List ℕ))
       ((simplifyCoordinates (([[((5 : ℚ), (5 : ℚ)), (6, 6)]] :
           List (List (ℚ × ℚ))).headD []) SIMPLIFICATION_TOLERANCE).flatMap
         fun coord => [coord.1, coord.2]) = []) ∧
    processPolygon (fun _ : List ℚ => ([] : List ℕ)) 0
      [[((5 : ℚ), (5 : ℚ)), (6, 6)]] = none :=
  ⟨Or.inl (by decide),
   claim_C7.1 (fun _ : List ℚ => ([] : List ℕ)) 0 [[((5 : ℚ), (5 : ℚ)), (6, 6)]]
     (Or.inl (by decide))⟩

theorem findConfigColor_eq_find :
    ∀ (colorConfig : List (String × Color)) (countryName : String),
      findConfigColor colorConfig countryName =
        (colorConfig.find? fun kc => colorMatches kc.1 countryName).map Prod.snd
  | [], _ => rfl
  | (k, c) :: rest, countryName => by
    rw [findConfigColor]
    by_cases h : colorMatches k countryName = true
    · rw [if_pos h, List.find?_cons_of_pos _ (by simpa using h)]
      rfl
    · rw [if_neg h, List.find?_cons_of_neg _ (by simpa using h)]
      exact findConfigColor_eq_find rest countryName

theorem chunk3Color_colorBuffer : ∀ (n : ℕ) (c : Color),
    chunk3Color (colorBuffer n c) = List.replicate n c
  | 0, _ => rfl
  | n + 1, c => by
    rw [colorBuffer, chunk3Color, chunk3Color_colorBuffer n c,
      List.replicate_succ]

theorem processFeatures_color (earcutF : List ℚ → List ℕ)
    (countryName : String) (countryColor : Color) (lvl : ℕ) :
    ∀ (fs : List FeatureGeometry) (idx : ℕ) (g : NamedGeom),
      g ∈ processFeatures earcutF countryName countryColor lvl fs idx →
      g.color = countryColor
  | [], idx, g, hg => by simp [processFeatures] at hg
  | f :: rest, idx, g, hg => by
    rw [processFeatures] at hg
    cases hf : processFeature earcutF lvl f with
    | none =>
      rw [hf] at hg
      exact processFeatures_color earcutF countryName countryColor lvl rest
        (idx + 1) g hg
    | some geo =>
      rw [hf] at hg
      dsimp only at hg
      rcases List.mem_cons.mp hg with rfl | hg2
      · rfl
      · exact processFeatures_color earcutF countryName countryColor lvl rest
          (idx + 1) g hg2

/-- Claim C8: the color-config keys are scanned in declared order and the
first key whose normalized (lowercased, whitespace-stripped) form contains
or is contained in the region's normalized file-base name supplies the
color; with no match the color is one of the 25 fixed palette entries; and
every fragment of the region carries that one color, broadcast identically
to every vertex of its color buffer. -/
theorem claim_C8 :
    (∀ (colorConfig : List (String × Color)) (countryName : String),
      findConfigColor colorConfig countryName =
        (colorConfig.find? fun kc => colorMatches kc.1 countryName).map Prod.snd) ∧
    (∀ (colorConfig : List (String × Color)) (countryName : String) (randIdx : ℕ),
      randIdx < colorPalettes.length →
      findConfigColor colorConfig countryName = none →
      resolveCountryColor colorConfig countryName randIdx ∈ colorPalettes) ∧
    (∀ (earcutF : List ℚ → List ℕ) (countryName : String)
      (features : List FeatureGeometry) (colorConfig : List (String × Color))
      (randIdx : ℕ),
      ∀ g ∈ (processCountry earcutF countryName features colorConfig
          randIdx).geometries,
        g.color = resolveCountryColor colorConfig countryName randIdx ∧
        chunk3Color (colorBuffer (g.geometry.positions.length / 3) g.color) =
          List.replicate (g.geometry.positions.length / 3)
            (resolveCountryColor colorConfig countryName randIdx)) := by
  refine ⟨findConfigColor_eq_find, ?_, ?_⟩
  · intro colorConfig countryName randIdx hlt hnone
    rw [resolveCountryColor, hnone]
    show colorPalettes.getD randIdx (0, 0, 0) ∈ colorPalettes
    rw [List.getD_eq_getElem _ _ hlt]
    exact List.getElem_mem _
  · intro earcutF countryName features colorConfig randIdx g hg
    have hc : g.color = resolveCountryColor colorConfig countryName randIdx :=
      processFeatures_color earcutF countryName
        (resolveCountryColor colorConfig countryName randIdx)
        (subdivisionLevelFor countryName) features 0 g hg
    refine ⟨hc, ?_⟩
    rw [chunk3Color_colorBuffer, hc]

/-- Witness for claim C8: a config whose only key does not match the region
name `france`; the resolved color is a palette entry. -/
theorem claim_C8_witness :
    (0 : ℕ) < colorPalettes.length ∧
    findConfigColor [("United States", ((0.1 : ℚ), (0.2 : ℚ), (0.3 : ℚ)))]
      "france" = none ∧
    resolveCountryColor [("United States", ((0.1 : ℚ), (0.2 : ℚ), (0.3 : ℚ)))]
      "france" 0 ∈ colorPalettes :=
  ⟨by decide, by decide,
   claim_C8.2.1 [("United States", ((0.1 : ℚ), (0.2 : ℚ), (0.3 : ℚ)))] "france" 0
     (by decide) (by decide)⟩

/-- Claim C10: every surviving feature's node is named
`countryName_featureIdx` by the feature's index in the input feature
collection (dropped features still advance the index), so dropping an
earlier feature leaves a gap in the surviving names; in particular a region
with a dropped feature 0 and a surviving feature 1 produces exactly one
node, named with suffix `_1`. -/
theorem claim_C10 :
    (∀ (earcutF : List ℚ → List ℕ) (countryName : String)
      (countryColor : Color) (lvl : ℕ) (fs : List FeatureGeometry) (idx : ℕ),
      processFeatures earcutF countryName countryColor lvl fs idx =
        (fs.enumFrom idx).filterMap fun p =>
          (processFeature earcutF lvl p.2).map fun g =>
            { name := countryName ++ "_" ++ toString p.1, geometry := g,
              color := countryColor }) ∧
    (∀ (earcutF : List ℚ → List ℕ) (countryName : String)
      (countryColor : Color) (lvl : ℕ) (f0 f1 : FeatureGeometry),
      processFeature earcutF lvl f0 = none →
      (processFeature earcutF lvl f1).isSome = true →
      (processFeatures earcutF countryName countryColor lvl [f0, f1] 0).map
          NamedGeom.name =
        [countryName ++ "_" ++ toString 1]) := by
  have henum : ∀ (earcutF : List ℚ → List ℕ) (countryName : String)
      (countryColor : Color) (lvl : ℕ) (fs : List FeatureGeometry) (idx : ℕ),
      processFeatures earcutF countryName countryColor lvl fs idx =
        (fs.enumFrom idx).filterMap fun p =>
          (processFeature earcutF lvl p.2).map fun g =>
            { name := countryName ++ "_" ++ toString p.1, geometry := g,
              color := countryColor } := by
    intro earcutF countryName countryColor lvl fs
    induction fs with
    | nil => intro idx; rfl
    | cons f rest ih =>
      intro idx
      rw [processFeatures, List.enumFrom, List.filterMap_cons]
      cases hf : processFeature earcutF lvl f with
      | none =>
        rw [Option.map_none']
        dsimp only
        exact ih (idx + 1)
      | some g =>
        rw [Option.map_some']
        dsimp only
        rw [ih (idx + 1)]
  refine ⟨henum, ?_⟩
  intro earcutF countryName countryColor lvl f0 f1 h0 h1
  obtain ⟨g, hg⟩ := Option.isSome_iff_exists.mp h1
  rw [processFeatures, h0]
  dsimp only
  rw [processFeatures, hg]
  dsimp only
  rw [processFeatures]
  rfl

theorem wit_getSqSegDist :
    getSqSegDist ((10 : ℚ), 0) (0 : ℚ × ℚ) ((10 : ℚ), 10) = 50 := by
  norm_num [getSqSegDist, segClosest]

theorem wit_simplify :
    simplifyCoordinates [((0 : ℚ), 0), (10, 0), (10, 10)] SIMPLIFICATION_TOLERANCE =
      [((0 : ℚ), 0), (10, 0), (10, 10)] := by
  have htol : SIMPLIFICATION_TOLERANCE * SIMPLIFICATION_TOLERANCE ≤ (50 : ℚ) := by
    norm_num [SIMPLIFICATION_TOLERANCE]
  simp only [simplifyCoordinates, List.map_cons, List.map_nil, simplify]
  norm_num [dpRec, argmax2, wit_getSqSegDist, htol]

theorem wit_isSome :
    (processFeature (fun _ : List ℚ => ([0, 1, 2] : List ℕ)) 0
      (FeatureGeometry.polygon [[((0 : ℚ), (0 : ℚ)), (10, 0), (10, 10)]])).isSome =
      true := by
  simp only [processFeature, processPolygon, List.headD]
  rw [wit_simplify]
  norm_num

/-- Witness for claim C10: feature 0 (a 2-point ring) is dropped, feature 1
(a surviving triangle) is kept; the single surviving node is named
`atlantis_1`. -/
theorem claim_C10_witness :
    processFeature (fun _ : List ℚ => ([0, 1, 2] : List ℕ)) 0
      (FeatureGeometry.polygon [[((0 : ℚ), (0 : ℚ)), (1, 1)]]) = none ∧
    (processFeature (fun _ : List ℚ => ([0, 1, 2] : List ℕ)) 0
      (FeatureGeometry.polygon
        [[((0 : ℚ), (0 : ℚ)), (10, 0), (10, 10)]])).isSome = true ∧
    (processFeatures (fun _ : List ℚ => ([0, 1, 2] : List ℕ)) "atlantis"
        ((0 : ℚ), (0 : ℚ), (0 : ℚ)) 0
        [FeatureGeometry.polygon [[((0 : ℚ), (0 : ℚ)), (1, 1)]],
         FeatureGeometry.polygon
           [[((0 : ℚ), (0 : ℚ)), (10, 0), (10, 10)]]] 0).map NamedGeom.name =
      ["atlantis" ++ "_" ++ toString 1] :=
  ⟨rfl, wit_isSome,
   claim_C10.2 (fun _ : List ℚ => ([0, 1, 2] : List ℕ)) "atlantis"
     ((0 : ℚ), (0 : ℚ), (0 : ℚ)) 0
     (FeatureGeometry.polygon [[((0 : ℚ), (0 : ℚ)), (1, 1)]])
     (FeatureGeometry.polygon [[((0 : ℚ), (0 : ℚ)), (10, 0), (10, 10)]])
     rfl wit_isSome⟩

end Globe
